import Mathlib

/-!
gobacnet: NPDU framer, segmentation parameter octet, application data codec,
broadcast address.

A shallow embedding of `encoding/npdu.go`, of `encoding/appdata.go` and of
`getBroadcast` in `device.go`.

Conventions.
* An octet is a `Nat` below 256; a buffer is a `List Nat`.
* `uint8` / `uint16` values are `Nat`s, reduced `% 2^w` at the point where the
  source converts or serialises them.
* Go `int` values are `Int`s (`int` is 64 bits wide).  Every conversion
  `uint8(x)` is `x % 256`, which is insensitive to 64-bit wrap-around of `x`
  because 256 divides 2^64.
* `float32` / `float64` values are given by their IEEE-754 bit patterns, which
  is all that the codec moves.
-/

namespace Gobacnet

/-! ## encoding/npdu.go -/

/-- Constant `BacnetProtocolVersion` of `npdu.go`. -/
def BacnetProtocolVersion : Nat := 1

/-- Constant `HopCountDefault` of `npdu.go`. -/
def HopCountDefault : Nat := 255

/-- Constant `NetworkMessageInvalid` of `npdu.go`. -/
def NetworkMessageInvalid : Nat := 0xFF

/-- Struct `npdu`: the network layer header.  `ProtocolVersion`,
`NetworkMessageType`, `Priority` and `HopCount` are `uint8`, `VendorID` is
`uint16`. -/
structure npdu where
  ExpectingReply : Bool
  ProtocolVersion : Nat
  NetworkLayerMessage : Bool
  NetworkMessageType : Nat
  VendorID : Nat
  Priority : Nat
  HopCount : Nat
  deriving Repr, DecidableEq

/-- Struct `BacnetAddress`.  `Net` is `uint16`, `Len` and `MacLen` are `uint8`,
`Mac` and `Adr` are byte slices. -/
structure BacnetAddress where
  Net : Nat
  Len : Nat
  MacLen : Nat
  Mac : List Nat
  Adr : List Nat
  deriving Repr, DecidableEq

/-- The fixed-size values that `EncodePDU` hands to `binary.Write`. -/
inductive Fixed where
  | u8 (v : Nat)
  | u16 (v : Nat)
  deriving Repr, DecidableEq

/-- Byte order argument of `binary.Write`. -/
inductive ByteOrder where
  | LittleEndian
  | BigEndian
  deriving Repr, DecidableEq

/-- Octets that `binary.Write(buff, order, p)` appends for a fixed-size `p`. -/
def putFixed : ByteOrder → Fixed → List Nat
  | _, .u8 v => [v % 256]
  | .LittleEndian, .u16 v => [v % 256, v / 256 % 256]
  | .BigEndian, .u16 v => [v / 256 % 256, v % 256]

/-- Call `binary.Write(buff, order, p)` on an in-memory `bytes.Buffer`: the
octets are appended and the returned error is nil for every fixed-size value. -/
def binaryWrite (buff : List Nat) (order : ByteOrder) (p : Fixed) :
    List Nat × Option String :=
  (buff ++ putFixed order p, none)

/-- The variables captured by the closures of `EncodePDU`: the buffer `buff`
and the named result `err`. -/
structure PduState where
  buff : List Nat
  err : Option String
  deriving Repr, DecidableEq

/-- Closure `write` of `EncodePDU`: skipped once `err` is set, otherwise
`err = binary.Write(buff, binary.LittleEndian, p)`. -/
def write (s : PduState) (p : Fixed) : PduState :=
  match s.err with
  | some _ => s
  | none =>
    let r := binaryWrite s.buff ByteOrder.LittleEndian p
    { buff := r.1, err := r.2 }

/-- Closure `writeAddr` of `EncodePDU`: `Net`, `Len`, then one write per element
of `a.Adr`. -/
def writeAddr (s : PduState) (a : BacnetAddress) : PduState :=
  let s1 := write s (.u16 a.Net)
  let s2 := write s1 (.u8 a.Len)
  a.Adr.foldl (fun st x => write st (.u8 x)) s2

/-- The control octet `temp` assembled by `EncodePDU` (lines 70-87). -/
def controlOctet (n : npdu) (src dest : BacnetAddress) : Nat :=
  let temp : Nat := 0
  let temp := if n.NetworkLayerMessage then temp ||| (1 <<< 7) else temp
  let temp := if dest.Net > 0 then temp ||| (1 <<< 5) else temp
  let temp := if src.Net > 0 ∧ src.Len > 0 then temp ||| (1 <<< 3) else temp
  let temp := if n.ExpectingReply then temp ||| (1 <<< 2) else temp
  temp ||| ((n.Priority % 256) &&& 0x03)

/-- Function `EncodePDU(n, src, dest)`: returns `(buff.Bytes(), err)`. -/
def EncodePDU (n : npdu) (src dest : BacnetAddress) : List Nat × Option String :=
  let s : PduState := { buff := [], err := none }
  let s := write s (.u8 n.ProtocolVersion)
  let temp := controlOctet n src dest
  let s := write s (.u8 temp)
  let s := writeAddr s dest
  let s := writeAddr s src
  let s := if dest.Net > 0 then write s (.u8 n.HopCount) else s
  let s :=
    if n.NetworkLayerMessage then
      let s := write s (.u8 n.NetworkMessageType)
      if n.NetworkMessageType ≥ 0x80 then write s (.u16 n.VendorID) else s
    else s
  (s.buff, s.err)

/-- Function `encodeNPDU(expectingReply, priority)`. -/
def encodeNPDU (expectingReply : Bool) (priority : Nat) : npdu :=
  { ExpectingReply := expectingReply
    ProtocolVersion := BacnetProtocolVersion
    NetworkLayerMessage := false
    NetworkMessageType := NetworkMessageInvalid
    VendorID := 0
    Priority := priority
    HopCount := HopCountDefault }

/-- Loop of `encodeMaxSegsMaxApdu` (lines 128-134) with `k` iterations left and
loop variable `i`: the value left in `octet` (it stays 0 when no iteration
breaks). -/
def segsLoop (maxSegs : Int) : Nat → Nat → Nat
  | 0, _ => 0
  | k + 1, i =>
    if maxSegs < ((1 <<< (i + 1) : Nat) : Int) then (i <<< 4) % 256
    else segsLoop maxSegs k (i + 1)

/-- Function `encodeMaxSegsMaxApdu(maxSegs, maxApdu)`. -/
def encodeMaxSegsMaxApdu (maxSegs maxApdu : Int) : Nat :=
  let octet := segsLoop maxSegs 6 0
  let octet :=
    if maxSegs = 64 then 0x60
    else if maxSegs > 64 then 0x70
    else octet
  if maxApdu ≤ 50 then octet ||| 0x00
  else if maxApdu ≤ 128 then octet ||| 0x01
  else if maxApdu ≤ 206 then octet ||| 0x02
  else if maxApdu ≤ 480 then octet ||| 0x03
  else if maxApdu ≤ 1024 then octet ||| 0x04
  else if maxApdu ≤ 1476 then octet ||| 0x05
  else octet

/-! ## encoding/appdata.go: date and time -/

/-- Constant `epochYear` of `appdata.go`. -/
def epochYear : Int := 1990

/-- Constant `notDefined` of `appdata.go`. -/
def notDefined : Int := 0xff

/-- Modelled from the spec: the constant `UnspecifiedTime` of the `types`
package, which is not among the source files.  The spec calls it the
"unspecified" sentinel 0xFF that passes through the year octet unchanged. -/
def UnspecifiedTime : Int := 0xFF

/-- Modelled from the spec: the struct `Date` of the `types` package, which is
not among the source files: year, month, day and day of week, each a Go `int`
(`DayOfWeek` is an integer type, `appdata.go` converts it with `uint8(..)`). -/
structure Date where
  Year : Int
  Month : Int
  Day : Int
  DayOfWeek : Int
  deriving Repr, DecidableEq

/-- Modelled from the spec: the struct `Time` of the `types` package, which is
not among the source files: hour, minute, second and millisecond, each a Go
`int`. -/
structure Time where
  Hour : Int
  Minute : Int
  Second : Int
  Millisecond : Int
  deriving Repr, DecidableEq

/-- Go conversion `uint8(x)` of an `int`: the low eight bits. -/
def uint8 (x : Int) : Nat := (x % 256).toNat

/-- Modelled from the spec: the struct `Encoder`, declared outside the source
files; "ordered, error-sticky write over a buffer". -/
structure Encoder where
  buff : List Nat
  err : Option String
  deriving Repr, DecidableEq

/-- Modelled from the spec: the struct `Decoder`, declared outside the source
files; "ordered, error-sticky read over a buffer".  `buff` holds the octets
not yet consumed. -/
structure Decoder where
  buff : List Nat
  err : Option String
  deriving Repr, DecidableEq

/-- Modelled from the spec: method `Encoder.write`, defined outside the source
files: the sticky-error writer.  Nothing is written once an error is pending;
otherwise the value is appended (multi-byte values big-endian, as the spec's
wire layout says) and the result of the write becomes the error. -/
def Encoder.write (e : Encoder) (p : Fixed) : Encoder :=
  match e.err with
  | some _ => e
  | none =>
    let r := binaryWrite e.buff ByteOrder.BigEndian p
    { buff := r.1, err := r.2 }

/-- Modelled from the spec: method `Decoder.decode`, defined outside the source
files, at a `*uint8` target holding `cur`: the sticky-error reader.  Nothing is
read once an error is pending; on an exhausted buffer the error is set and the
target keeps its value; otherwise one octet is consumed into the target. -/
def Decoder.decode (d : Decoder) (cur : Nat) : Decoder × Nat :=
  match d.err with
  | some _ => (d, cur)
  | none =>
    match d.buff with
    | [] => ({ d with err := some "EOF" }, cur)
    | b :: rest => ({ buff := rest, err := none }, b % 256)

/-- Modelled from the spec: method `Decoder.Error`, defined outside the source
files: the pending (first) error of the sticky reader. -/
def Decoder.Error (d : Decoder) : Option String := d.err

/-- Method `Encoder.date` (lines 107-117). -/
def Encoder.date (e : Encoder) (dt : Date) : Encoder :=
  let e :=
    if dt.Year ≠ UnspecifiedTime then e.write (.u8 (uint8 (dt.Year - epochYear)))
    else e.write (.u8 (uint8 dt.Year))
  let e := e.write (.u8 (uint8 dt.Month))
  let e := e.write (.u8 (uint8 dt.Day))
  e.write (.u8 (uint8 dt.DayOfWeek))

/-- Method `Decoder.date` (lines 119-131): `dt` is the pointed-to Date on entry,
the result is the decoder and the Date on exit.  The four locals are declared
and never assigned: the body holds no call of `d.decode`. -/
def Decoder.date (d : Decoder) (dt : Date) : Decoder × Date :=
  let year : Nat := 0
  let month : Nat := 0
  let day : Nat := 0
  let dayOfWeek : Nat := 0
  let dt : Date :=
    if dt.Year ≠ UnspecifiedTime then { dt with Year := (year : Int) + epochYear }
    else { dt with Year := (year : Int) }
  let dt : Date := { dt with Month := (month : Int) }
  let dt : Date := { dt with Day := (day : Int) }
  let dt : Date := { dt with DayOfWeek := (dayOfWeek : Int) }
  (d, dt)

/-- Method `Encoder.time` (lines 133-140); Go integer division truncates. -/
def Encoder.time (e : Encoder) (t : Time) : Encoder :=
  let e := e.write (.u8 (uint8 t.Hour))
  let e := e.write (.u8 (uint8 t.Minute))
  let e := e.write (.u8 (uint8 t.Second))
  e.write (.u8 (uint8 (Int.tdiv t.Millisecond 10)))

/-- Method `Decoder.time` (lines 141-154): `t` is the pointed-to Time on entry. -/
def Decoder.time (d : Decoder) (t : Time) : Decoder × Time :=
  let r := d.decode 0
  let d := r.1
  let hour := r.2
  let r := d.decode 0
  let d := r.1
  let min := r.2
  let r := d.decode 0
  let d := r.1
  let sec := r.2
  let r := d.decode 0
  let d := r.1
  let centisec := r.2
  let t : Time := { t with Hour := (hour : Int) }
  let t : Time := { t with Minute := (min : Int) }
  let t : Time := { t with Second := (sec : Int) }
  let t : Time := { t with Millisecond := (centisec : Int) * 10 }
  (d, t)

/-- The zero value of `Date`, as declared by `var date bactype.Date`. -/
def Date.zero : Date := ⟨0, 0, 0, 0⟩

/-- The zero value of `Time`, as declared by `var t bactype.Time`. -/
def Time.zero : Time := ⟨0, 0, 0, 0⟩

/-! ## encoding/appdata.go: tags and application data -/

/-- Constant `tagNull` of `appdata.go`. -/
def tagNull : Nat := 0

/-- Constant `tagBool` of `appdata.go`. -/
def tagBool : Nat := 1

/-- Constant `tagUint` of `appdata.go`. -/
def tagUint : Nat := 2

/-- Constant `tagInt` of `appdata.go`. -/
def tagInt : Nat := 3

/-- Constant `tagReal` of `appdata.go`. -/
def tagReal : Nat := 4

/-- Constant `tagDouble` of `appdata.go`. -/
def tagDouble : Nat := 5

/-- Constant `tagOctetString` of `appdata.go`. -/
def tagOctetString : Nat := 6

/-- Constant `tagCharacterString` of `appdata.go`. -/
def tagCharacterString : Nat := 7

/-- Constant `tagBitString` of `appdata.go`. -/
def tagBitString : Nat := 8

/-- Constant `tagEnumerated` of `appdata.go`. -/
def tagEnumerated : Nat := 9

/-- Constant `tagDate` of `appdata.go`. -/
def tagDate : Nat := 10

/-- Constant `tagTime` of `appdata.go`. -/
def tagTime : Nat := 11

/-- Constant `tagObjectID` of `appdata.go`. -/
def tagObjectID : Nat := 12

/-- Constant `tagReserve1` of `appdata.go`. -/
def tagReserve1 : Nat := 13

/-- Constant `tagReserve2` of `appdata.go`. -/
def tagReserve2 : Nat := 14

/-- Constant `tagReserve3` of `appdata.go`. -/
def tagReserve3 : Nat := 15

/-- Constant `maxTag` of `appdata.go`. -/
def maxTag : Nat := 16

/-- Constant `realLen` of `appdata.go`. -/
def realLen : Nat := 4

/-- Constant `doubleLen` of `appdata.go`. -/
def doubleLen : Nat := 8

/-- Constant `dateLen` of `appdata.go`. -/
def dateLen : Nat := 4

/-- Constant `timeLen` of `appdata.go`. -/
def timeLen : Nat := 4

/-- Constant `objectIDLen` of `appdata.go`. -/
def objectIDLen : Nat := 4

/-- Constant `appLayerContext` of `appdata.go`. -/
def appLayerContext : Bool := false

/-- Function `IsOddMonth`. -/
def IsOddMonth (month : Int) : Bool := decide (month = 13)

/-- Function `IsEvenMonth`. -/
def IsEvenMonth (month : Int) : Bool := decide (month = 14)

/-- Function `IsLastDayOfMonth`. -/
def IsLastDayOfMonth (day : Int) : Bool := decide (day = 32)

/-- Function `IsEvenDayOfMonth`. -/
def IsEvenDayOfMonth (day : Int) : Bool := decide (day = 33)

/-- Function `IsOddDayOfMonth`. -/
def IsOddDayOfMonth (day : Int) : Bool := decide (day = 32)

/-- The `width` octets of `v`, most significant first. -/
def beBytes : Nat → Nat → List Nat
  | 0, _ => []
  | w + 1, v => (v / 256 ^ w % 256) :: beBytes w v

/-- The number whose big-endian octets are `bs`. -/
def beValue (bs : List Nat) : Nat := bs.foldl (fun acc b => acc * 256 + b % 256) 0

/-- Modelled from the spec: method `Encoder.write`, defined outside the source
files, at a value of `width` octets (`uint32`, `float32`, `float64`, the floats
given by their IEEE-754 bit patterns): sticky, big-endian. -/
def Encoder.writeBE (e : Encoder) (width v : Nat) : Encoder :=
  match e.err with
  | some _ => e
  | none => { buff := e.buff ++ beBytes width v, err := none }

/-- Modelled from the spec: method `Encoder.write`, defined outside the source
files, at a byte slice: sticky, the octets are appended in order. -/
def Encoder.writeSlice (e : Encoder) (bs : List Nat) : Encoder :=
  match e.err with
  | some _ => e
  | none => { buff := e.buff ++ bs.map (· % 256), err := none }

/-- Modelled from the spec: method `Encoder.tag`, defined outside the source
files (spec 4.1): header octet `(tagNumber<<4, or 0xF0 if >= 15) |
(contextBit<<3) | (lengthOrValue if < 5 else 5)`, then the tag number octet if
`tagNumber >= 15`, then the extended length if `lengthOrValue >= 5`: one octet
below 254, 0xFE and two octets below 65536, else 0xFF and four octets. -/
def Encoder.tag (e : Encoder) (tagNum : Nat) (ctx : Bool) (lenVal : Nat) : Encoder :=
  let head := (if tagNum < 15 then tagNum <<< 4 else 0xF0)
    ||| (if ctx then 1 <<< 3 else 0) ||| (if lenVal < 5 then lenVal else 5)
  let e := e.write (.u8 head)
  let e := if tagNum ≥ 15 then e.write (.u8 tagNum) else e
  if lenVal ≥ 5 then
    if lenVal < 254 then e.write (.u8 lenVal)
    else if lenVal < 65536 then (e.write (.u8 0xFE)).write (.u16 lenVal)
    else (e.write (.u8 0xFF)).writeBE 4 lenVal
  else e

/-- Modelled from the spec: function `valueLength`, defined outside the source
files: "the smallest octet count representing the value". -/
def valueLength (val : Nat) : Nat :=
  if val < 0x100 then 1
  else if val < 0x10000 then 2
  else if val < 0x1000000 then 3
  else 4

/-- Modelled from the spec: method `Encoder.unsigned`, defined outside the
source files: "minimal-byte-count big-endian". -/
def Encoder.unsigned (e : Encoder) (val : Nat) : Encoder :=
  e.writeBE (valueLength val) val

/-- Method `Encoder.string` (lines 98-100). -/
def Encoder.string (e : Encoder) (s : List Nat) : Encoder :=
  e.writeSlice s

/-- Method `Encoder.boolean` (lines 156-165). -/
def Encoder.boolean (e : Encoder) (x : Bool) : Encoder :=
  let length : Nat := if x then 1 else 0
  e.tag tagBool appLayerContext length

/-- Method `Encoder.real` (lines 167-169); `x` is the bit pattern of the
`float32`. -/
def Encoder.real (e : Encoder) (x : Nat) : Encoder :=
  e.writeBE 4 x

/-- Method `Encoder.double` (lines 175-177); `x` is the bit pattern of the
`float64`. -/
def Encoder.double (e : Encoder) (x : Nat) : Encoder :=
  e.writeBE 8 x

/-- The dynamic types a caller can hand to `Encoder.AppData` as `interface{}`:
the five that its type switch names and others that it does not.  Floats are
given by their IEEE-754 bit patterns, strings by their octets. -/
inductive GoValue where
  | float32 (bits : Nat)
  | float64 (bits : Nat)
  | bool (b : Bool)
  | string (s : List Nat)
  | uint32 (v : Nat)
  | int (v : Int)
  | int32 (v : Int)
  | date (d : Date)
  | time (t : Time)
  | objectID (type : Nat) (inst : Nat)
  | nil
  deriving Repr, DecidableEq

/-- The errors that `Encoder.AppData` and `Decoder.AppData` can return: the four
`fmt.Errorf` values of `Decoder.AppData`, the sticky error of the reader passed
on by `d.Error()`, and the unsupported-value-type error that the spec names for
encoding. -/
inductive AppError where
  | nullTag
  | octetStringUnsupported
  | bitStringUnsupported
  | unsupportedTag (tag : Nat)
  | decode (msg : String)
  | unsupportedValueType
  deriving Repr, DecidableEq

/-- The errors of `Decoder.AppData` that reject a tag as unsupported. -/
def AppError.isUnsupportedTag : AppError → Bool
  | .octetStringUnsupported => true
  | .bitStringUnsupported => true
  | .unsupportedTag _ => true
  | _ => false

/-- Method `Encoder.AppData` (lines 183-202): a type switch with five cases and
no default, followed by `return nil`. -/
def Encoder.AppData (e : Encoder) (i : GoValue) : Encoder × Option AppError :=
  let e :=
    match i with
    | .float32 val => (e.tag tagReal appLayerContext realLen).real val
    | .float64 val => (e.tag tagDouble appLayerContext realLen).double val
    | .bool val => e.boolean val
    | .string val => (e.tag tagCharacterString appLayerContext (val.length % 2 ^ 32)).string val
    | .uint32 val =>
      let length := valueLength val
      (e.tag tagUint appLayerContext (length % 2 ^ 32)).unsigned val
    | _ => e
  (e, none)

/-- Modelled from the spec: method `Decoder.decode`, defined outside the source
files, at a target of `width >= 1` octets holding `cur` (`uint16`, `uint32`,
`float32`, `float64`): sticky; when fewer than `width` octets are left the
buffer is drained, the error is set and the target keeps its value; otherwise
the octets are consumed as one big-endian number. -/
def Decoder.decodeBE (d : Decoder) (width cur : Nat) : Decoder × Nat :=
  match d.err with
  | some _ => (d, cur)
  | none =>
    if d.buff.length < width then
      ({ buff := [], err := some (if d.buff = [] then "EOF" else "unexpected EOF") }, cur)
    else ({ buff := d.buff.drop width, err := none }, beValue (d.buff.take width))

/-- Modelled from the spec: method `Decoder.decode`, defined outside the source
files, at a byte slice of `len` zero octets: sticky; an empty slice reads
nothing; when fewer than `len` octets are left the buffer is drained, the error
is set and the slice stays zero; otherwise `len` octets are consumed into it. -/
def Decoder.decodeSlice (d : Decoder) (len : Nat) : Decoder × List Nat :=
  match d.err with
  | some _ => (d, List.replicate len 0)
  | none =>
    if len = 0 then (d, [])
    else if d.buff.length < len then
      ({ buff := [], err := some (if d.buff = [] then "EOF" else "unexpected EOF") },
        List.replicate len 0)
    else ({ buff := d.buff.drop len, err := none }, (d.buff.take len).map (· % 256))

/-- Modelled from the spec: method `Decoder.tagNumberAndValue`, defined outside
the source files (spec 4.1, the inverse of the tag encoding): the header octet
gives the tag number in its high nibble (0xF: the next octet is the tag number)
and the length or value in its low three bits (5: an extended length follows,
one octet, or 0xFE and two octets, or 0xFF and four octets).  The result is the
decoder, the tag number, the header octet and the length or value. -/
def Decoder.tagNumberAndValue (d : Decoder) : Decoder × Nat × Nat × Nat :=
  let r := d.decode 0
  let d := r.1
  let hdr := r.2
  let r := if hdr >>> 4 = 0xF then d.decode 0 else (d, hdr >>> 4)
  let d := r.1
  let tag := r.2
  if hdr &&& 0x07 = 5 then
    let r := d.decode 0
    let d := r.1
    let val := r.2
    if val = 0xFF then
      let r := d.decodeBE 4 0
      (r.1, tag, hdr, r.2)
    else if val = 0xFE then
      let r := d.decodeBE 2 0
      (r.1, tag, hdr, r.2)
    else (d, tag, hdr, val)
  else (d, tag, hdr, hdr &&& 0x07)

/-- Modelled from the spec: method `Decoder.unsigned`, defined outside the
source files: "decode reads exactly `lengthOrValue` octets", big-endian, into a
`uint32`. -/
def Decoder.unsigned (d : Decoder) (len : Int) : Decoder × Nat :=
  if len ≤ 0 then (d, 0)
  else
    let r := d.decodeBE len.toNat 0
    (r.1, r.2 % 2 ^ 32)

/-- Modelled from the spec: method `Decoder.signed`, defined outside the source
files: as `Decoder.unsigned`, and "sign-extends for signed". -/
def Decoder.signed (d : Decoder) (len : Int) : Decoder × Int :=
  if len ≤ 0 then (d, 0)
  else
    let r := d.decodeBE len.toNat 0
    let v := r.2
    if v ≥ 2 ^ (8 * len.toNat - 1) then (r.1, (v : Int) - 2 ^ (8 * len.toNat))
    else (r.1, (v : Int))

/-- Modelled from the spec: method `Decoder.enumerated`, defined outside the
source files: "same minimal-byte unsigned encoding". -/
def Decoder.enumerated (d : Decoder) (len : Int) : Decoder × Nat :=
  d.unsigned len

/-- Modelled from the spec: method `Decoder.objectId`, defined outside the
source files: one 32-bit word, "type in high 10 bits, instance in low 22
bits". -/
def Decoder.objectId (d : Decoder) : Decoder × Nat × Nat :=
  let r := d.decodeBE 4 0
  (r.1, r.2 >>> 22, r.2 &&& (2 ^ 22 - 1))

/-- Method `Decoder.real` (lines 171-173); the result is the bit pattern of the
`float32`. -/
def Decoder.real (d : Decoder) (x : Nat) : Decoder × Nat :=
  d.decodeBE 4 x

/-- Method `Decoder.double` (lines 179-181); the result is the bit pattern of
the `float64`. -/
def Decoder.double (d : Decoder) (x : Nat) : Decoder × Nat :=
  d.decodeBE 8 x

/-- Method `Decoder.string` (lines 101-105): `len` is a Go `int`, here never
negative (it comes from a `uint32`). -/
def Decoder.string (d : Decoder) (len : Int) : Decoder × List Nat :=
  d.decodeSlice len.toNat

/-- The values that `Decoder.AppData` returns as `interface{}`. -/
inductive AppValue where
  | nil
  | bool (b : Bool)
  | uint32 (v : Nat)
  | int32 (v : Int)
  | float32 (bits : Nat)
  | float64 (bits : Nat)
  | string (s : List Nat)
  | date (d : Date)
  | time (t : Time)
  | objectID (type : Nat) (inst : Nat)
  deriving Repr, DecidableEq

/-- The error returned as `d.Error()`. -/
def Decoder.appError (d : Decoder) : Option AppError :=
  d.Error.map AppError.decode

/-- Method `Decoder.AppData` (lines 204-256).  `int` is 64 bits wide, so
`int(lenvalue)` is the `uint32` itself.  The result is the decoder after the
call, the value and the error. -/
def Decoder.AppData (d : Decoder) : Decoder × AppValue × Option AppError :=
  let r := d.tagNumberAndValue
  let d := r.1
  let tag := r.2.1
  let lenvalue := r.2.2.2
  let len : Int := (lenvalue : Int)
  if tag = tagNull then (d, .nil, some .nullTag)
  else if tag = tagBool then (d, .bool (decide (len > 0)), d.appError)
  else if tag = tagUint then
    let r := d.unsigned len
    (r.1, .uint32 r.2, r.1.appError)
  else if tag = tagInt then
    let r := d.signed len
    (r.1, .int32 r.2, r.1.appError)
  else if tag = tagReal then
    let r := d.real 0
    (r.1, .float32 r.2, r.1.appError)
  else if tag = tagDouble then
    let r := d.double 0
    (r.1, .float64 r.2, r.1.appError)
  else if tag = tagOctetString then (d, .nil, some .octetStringUnsupported)
  else if tag = tagCharacterString then
    let r := d.string len
    (r.1, .string r.2, r.1.appError)
  else if tag = tagBitString then (d, .nil, some .bitStringUnsupported)
  else if tag = tagEnumerated then
    let r := d.enumerated len
    (r.1, .uint32 r.2, r.1.appError)
  else if tag = tagDate then
    let r := d.date Date.zero
    (r.1, .date r.2, r.1.appError)
  else if tag = tagTime then
    let r := d.time Time.zero
    (r.1, .time r.2, r.1.appError)
  else if tag = tagObjectID then
    let r := d.objectId
    (r.1, .objectID r.2.1 r.2.2, r.1.appError)
  else (d, .nil, some (.unsupportedTag tag))

/-- Modelled from the spec: the result of `net.ParseCIDR` that `getBroadcast`
uses, the `IP` and `Mask` byte slices of a `net.IPNet` (standard library). -/
structure IPNet where
  IP : List Nat
  Mask : List Nat
  deriving Repr, DecidableEq

/-- Loop of `getBroadcast` (lines 66-68) over the indices `is` of `broadcast`:
`none` is the run-time panic of an index out of range. -/
def broadcastLoop (ipnet : IPNet) : List Nat → Option (List Nat)
  | [] => some []
  | i :: is =>
    match ipnet.IP[i]?, ipnet.Mask[i]? with
    | some a, some m =>
      (broadcastLoop ipnet is).map (fun rest => ((a % 256) ||| (255 - m % 256)) :: rest)
    | _, _ => none

/-- Function `getBroadcast(addr)` of `device.go`, with `net.ParseCIDR` as the
parameter `parseCIDR`.  The result is `none` on a panic, else the returned
address and error. -/
def getBroadcast (parseCIDR : String → Except String IPNet) (addr : String) :
    Option (List Nat × Option String) :=
  match parseCIDR addr with
  | .error err => some ([], some err)
  | .ok ipnet => (broadcastLoop ipnet (List.range 4)).map (fun b => (b, none))

/-! ## Vocabulary of the statements -/

/-- The bounds of the low nibble of `encodeMaxSegsMaxApdu`, in source order. -/
def apduBounds : List Int := [50, 128, 206, 480, 1024, 1476]

/-- Bucket of `maxSegs`: the high nibble chosen by `encodeMaxSegsMaxApdu`. -/
def segsBucket (maxSegs : Int) : Nat :=
  if maxSegs < 2 then 0
  else if maxSegs < 4 then 1
  else if maxSegs < 8 then 2
  else if maxSegs < 16 then 3
  else if maxSegs < 32 then 4
  else if maxSegs < 64 then 5
  else if maxSegs = 64 then 6
  else 7

/-- Bucket of `maxApdu`: index of the first bound it does not exceed (6 when it
exceeds them all). -/
def apduBucket (maxApdu : Int) : Nat :=
  if maxApdu ≤ 50 then 0
  else if maxApdu ≤ 128 then 1
  else if maxApdu ≤ 206 then 2
  else if maxApdu ≤ 480 then 3
  else if maxApdu ≤ 1024 then 4
  else if maxApdu ≤ 1476 then 5
  else 6

/-- A header used to instantiate the statements. -/
def sampleHeader : npdu :=
  { ExpectingReply := true, ProtocolVersion := 1, NetworkLayerMessage := true,
    NetworkMessageType := 0x81, VendorID := 0x0102, Priority := 2, HopCount := 200 }

/-- A routed address used to instantiate the statements. -/
def sampleRouted : BacnetAddress :=
  { Net := 1234, Len := 2, MacLen := 0, Mac := [], Adr := [7, 9] }

/-- A local address used to instantiate the statements. -/
def sampleLocal : BacnetAddress :=
  { Net := 0, Len := 0, MacLen := 0, Mac := [], Adr := [] }

/-- An address whose `Len` disagrees with its `Adr` slice. -/
def sampleMismatch : BacnetAddress :=
  { Net := 0, Len := 0, MacLen := 0, Mac := [], Adr := [1, 2, 3] }

/-- A date used to instantiate the statements. -/
def sampleDate : Date := { Year := 2020, Month := 5, Day := 17, DayOfWeek := 3 }

/-- A time used to instantiate the statements. -/
def sampleTime : Time := { Hour := 13, Minute := 45, Second := 59, Millisecond := 987 }

/-- The encoder that `NewEncoder` hands out: empty buffer, no error. -/
def emptyEncoder : Encoder := { buff := [], err := none }

/-- The bit pattern of the `float64` 72.5. -/
def sampleDoubleBits : Nat := 0x4052200000000000

/-- The bit pattern of the `float32` 72.5. -/
def sampleRealBits : Nat := 0x42910000

/-- A decoder on a null tag (header octet 0x00) followed by one more octet. -/
def sampleNullInput : Decoder := { buff := [0x00, 9], err := none }

/-- A decoder on an octet-string tag of length 7 (header 0x65, extended length
7) followed by one more octet. -/
def sampleOctetStringInput : Decoder := { buff := [0x65, 0x07, 9], err := none }

/-- A decoder on a hand-built boolean tag with length or value 7 (header 0x15,
extended length 7). -/
def sampleBoolInput : Decoder := { buff := [0x15, 0x07], err := none }

/-- The network 192.168.1.0/24 as `net.ParseCIDR` returns it. -/
def sampleNet : IPNet := { IP := [192, 168, 1, 0], Mask := [255, 255, 255, 0] }

/-- A stand-in for `net.ParseCIDR` on strings that parse to `sampleNet`. -/
def sampleParseCIDR (_addr : String) : Except String IPNet :=
  .ok sampleNet

/-! ### Layout of the bytes returned by `EncodePDU` -/

/-- Octets that `writeAddr` appends for an address when no error is pending. -/
def addrBytes (a : BacnetAddress) : List Nat :=
  putFixed ByteOrder.LittleEndian (.u16 a.Net) ++ [a.Len % 256] ++ a.Adr.map (· % 256)

/-- Octets that follow the two addresses: the optional hop count. -/
def hopBytes (n : npdu) (dest : BacnetAddress) : List Nat :=
  if dest.Net > 0 then [n.HopCount % 256] else []

/-- Octets that close the header: message type and optional vendor id. -/
def msgBytes (n : npdu) : List Nat :=
  if n.NetworkLayerMessage then
    [n.NetworkMessageType % 256] ++
      (if n.NetworkMessageType ≥ 0x80 then
        putFixed ByteOrder.LittleEndian (.u16 n.VendorID) else [])
  else []

/-! ## Lemmas on the writer -/

theorem write_ok (s : PduState) (p : Fixed) (h : s.err = none) :
    write s p = { buff := s.buff ++ putFixed ByteOrder.LittleEndian p, err := none } := by
  simp [write, h, binaryWrite]

theorem write_mk (b : List Nat) (p : Fixed) :
    write { buff := b, err := none } p
      = { buff := b ++ putFixed ByteOrder.LittleEndian p, err := none } :=
  write_ok _ _ rfl

theorem foldl_write_mk (xs : List Nat) (b : List Nat) :
    xs.foldl (fun st x => write st (.u8 x)) { buff := b, err := none }
      = { buff := b ++ xs.map (· % 256), err := none } := by
  induction xs generalizing b with
  | nil => simp
  | cons x xs ih => simp [List.foldl, write_mk, ih, putFixed]

theorem writeAddr_mk (b : List Nat) (a : BacnetAddress) :
    writeAddr { buff := b, err := none } a
      = { buff := b ++ addrBytes a, err := none } := by
  simp [writeAddr, write_mk, foldl_write_mk, addrBytes, putFixed]

theorem addrBytes_length (a : BacnetAddress) :
    (addrBytes a).length = 3 + a.Adr.length := by
  simp [addrBytes, putFixed]; omega

/-- The complete output of `EncodePDU`, field by field, with a nil error. -/
theorem EncodePDU_eq (n : npdu) (src dest : BacnetAddress) :
    EncodePDU n src dest =
      ([n.ProtocolVersion % 256, controlOctet n src dest % 256] ++ addrBytes dest
        ++ addrBytes src ++ hopBytes n dest ++ msgBytes n, none) := by
  unfold EncodePDU hopBytes msgBytes
  simp only [write_mk, writeAddr_mk, putFixed]
  by_cases hd : dest.Net > 0 <;> by_cases hn : n.NetworkLayerMessage = true
    <;> by_cases hv : n.NetworkMessageType ≥ 0x80
    <;> simp [hd, hn, hv, write_mk, putFixed]

theorem and3_eq_mod4 (p : Nat) : (p % 256) &&& 0x03 = p % 4 := by
  have h := Nat.and_pow_two_sub_one_eq_mod (p % 256) 2
  norm_num at h
  omega

/-- The control octet as a sum of its flag weights. -/
theorem controlOctet_eq (n : npdu) (src dest : BacnetAddress) :
    controlOctet n src dest =
      (if n.NetworkLayerMessage then 128 else 0) + (if dest.Net > 0 then 32 else 0)
        + (if src.Net > 0 ∧ src.Len > 0 then 8 else 0)
        + (if n.ExpectingReply then 4 else 0) + n.Priority % 4 := by
  unfold controlOctet
  rw [and3_eq_mod4]
  have hq : n.Priority % 4 < 4 := Nat.mod_lt _ (by decide)
  generalize n.Priority % 4 = q at hq
  interval_cases q <;> cases n.NetworkLayerMessage <;> cases n.ExpectingReply
    <;> by_cases hd : dest.Net > 0 <;> by_cases hs : src.Net > 0 ∧ src.Len > 0
    <;> simp [hd, hs]

theorem controlOctet_lt (n : npdu) (src dest : BacnetAddress) :
    controlOctet n src dest < 256 := by
  rw [controlOctet_eq]
  have hq : n.Priority % 4 < 4 := Nat.mod_lt _ (by decide)
  split_ifs <;> omega

/-- The output of `EncodePDU` with the control octet unreduced. -/
theorem EncodePDU_bytes (n : npdu) (src dest : BacnetAddress) :
    (EncodePDU n src dest).1 =
      [n.ProtocolVersion % 256, controlOctet n src dest] ++ addrBytes dest
        ++ addrBytes src ++ hopBytes n dest ++ msgBytes n := by
  rw [EncodePDU_eq, Nat.mod_eq_of_lt (controlOctet_lt n src dest)]

theorem getElem?_prefix_length (pre : List Nat) (x : Nat) (rest : List Nat) (k : Nat)
    (hk : pre.length = k) : (pre ++ x :: rest)[k]? = some x := by
  subst hk
  rw [List.getElem?_append_right (le_refl _)]
  simp

theorem msgBytes_length (n : npdu) :
    (msgBytes n).length =
      if n.NetworkLayerMessage then (if n.NetworkMessageType < 0x80 then 1 else 3) else 0 := by
  unfold msgBytes
  by_cases hn : n.NetworkLayerMessage = true <;> by_cases hv : n.NetworkMessageType < 0x80
    <;> simp [hn, hv, putFixed]
  have h2 : 128 ≤ n.NetworkMessageType := by omega
  simp [h2]

/-! ## The NPDU framer -/

/-- C1: the second octet returned by `EncodePDU` is the control octet: bit 7 is
`NetworkLayerMessage`, bit 5 is `dest.Net > 0`, bit 3 is
`src.Net > 0 && src.Len > 0`, bit 2 is `ExpectingReply`, bits 1..0 are
`Priority mod 4`, and bits 6 and 4 are zero, for every priority. -/
theorem EncodePDU_control_octet (n : npdu) (src dest : BacnetAddress) :
    ∃ c : Nat, (EncodePDU n src dest).1[1]? = some c ∧ c < 256 ∧
      c.testBit 7 = n.NetworkLayerMessage ∧
      c.testBit 5 = decide (dest.Net > 0) ∧
      c.testBit 3 = decide (src.Net > 0 ∧ src.Len > 0) ∧
      c.testBit 2 = n.ExpectingReply ∧
      c % 4 = n.Priority % 4 ∧
      c.testBit 6 = false ∧ c.testBit 4 = false := by
  refine ⟨controlOctet n src dest, by simp [EncodePDU_bytes], controlOctet_lt n src dest, ?_⟩
  rw [controlOctet_eq]
  have hq : n.Priority % 4 < 4 := Nat.mod_lt _ (by decide)
  generalize n.Priority % 4 = q at hq
  interval_cases q <;> cases n.NetworkLayerMessage <;> cases n.ExpectingReply
    <;> by_cases hd : dest.Net > 0 <;> by_cases hs : src.Net > 0 ∧ src.Len > 0
    <;> simp [hd, hs] <;> decide

/-- C2: `EncodePDU` writes a hop-count octet exactly when `dest.Net > 0`: then
the octet at index `8 + len(dest.Adr) + len(src.Adr)` is `n.HopCount`; when
`dest.Net = 0` the closing octets follow the source address directly, with
`src.Net = 0` as well bits 5 and 3 of the control octet are clear, and the
output of a header that is not a network layer message ends with the source
address. -/
theorem EncodePDU_hop_count (n : npdu) (src dest : BacnetAddress)
    (hh : n.HopCount < 256) :
    (dest.Net > 0 →
      (EncodePDU n src dest).1[8 + dest.Adr.length + src.Adr.length]? = some n.HopCount) ∧
    (EncodePDU n src dest).1.length =
      8 + dest.Adr.length + src.Adr.length + (if dest.Net > 0 then 1 else 0)
        + (msgBytes n).length ∧
    (dest.Net = 0 →
      (EncodePDU n src dest).1 =
        [n.ProtocolVersion % 256, controlOctet n src dest] ++ addrBytes dest
          ++ addrBytes src ++ msgBytes n) ∧
    (dest.Net = 0 → src.Net = 0 →
      ∃ c : Nat, (EncodePDU n src dest).1[1]? = some c ∧
        c.testBit 5 = false ∧ c.testBit 3 = false) ∧
    (dest.Net = 0 → n.NetworkLayerMessage = false →
      (EncodePDU n src dest).1 =
        [n.ProtocolVersion % 256, controlOctet n src dest] ++ addrBytes dest
          ++ addrBytes src) := by
  refine ⟨?_, ?_, ?_, ?_, ?_⟩
  · intro hd
    have hout : (EncodePDU n src dest).1 =
        ([n.ProtocolVersion % 256, controlOctet n src dest] ++ addrBytes dest
          ++ addrBytes src) ++ n.HopCount :: msgBytes n := by
      rw [EncodePDU_bytes]
      simp [hopBytes, hd, Nat.mod_eq_of_lt hh]
    rw [hout]
    apply getElem?_prefix_length
    simp [addrBytes_length]
    omega
  · rw [EncodePDU_bytes]
    by_cases hd : dest.Net > 0 <;> simp [hopBytes, hd, addrBytes_length] <;> omega
  · intro hd
    rw [EncodePDU_bytes]
    simp [hopBytes, hd]
  · intro hd hs
    refine ⟨controlOctet n src dest, by simp [EncodePDU_bytes], ?_⟩
    rw [controlOctet_eq]
    have hq : n.Priority % 4 < 4 := Nat.mod_lt _ (by decide)
    generalize n.Priority % 4 = q at hq
    interval_cases q <;> cases n.NetworkLayerMessage <;> cases n.ExpectingReply
      <;> simp [hd, hs] <;> decide
  · intro hd hn
    rw [EncodePDU_bytes]
    simp [hopBytes, msgBytes, hd, hn]

/-- Witness of C2 on a routed destination with hop count 200. -/
theorem EncodePDU_hop_count_witness :
    sampleHeader.HopCount < 256 ∧ sampleRouted.Net > 0 ∧
      (EncodePDU sampleHeader sampleLocal sampleRouted).1[
        8 + sampleRouted.Adr.length + sampleLocal.Adr.length]? = some 200 :=
  ⟨by decide, by decide,
    (EncodePDU_hop_count sampleHeader sampleLocal sampleRouted (by decide)).1 (by decide)⟩

/-- C3: after the addresses and the optional hop count `EncodePDU` writes
nothing when the header is not a network layer message, the octet
`NetworkMessageType` alone when that type is below 0x80, and the type followed
by the two octets of `VendorID` otherwise; the length of the output follows. -/
theorem EncodePDU_message_tail (n : npdu) (src dest : BacnetAddress)
    (hN : n.NetworkMessageType < 256) (hV : n.VendorID < 65536) :
    ([n.ProtocolVersion % 256, controlOctet n src dest] ++ addrBytes dest
        ++ addrBytes src ++ hopBytes n dest).length =
      8 + dest.Adr.length + src.Adr.length + (if dest.Net > 0 then 1 else 0) ∧
    (n.NetworkLayerMessage = false →
      (EncodePDU n src dest).1 =
        [n.ProtocolVersion % 256, controlOctet n src dest] ++ addrBytes dest
          ++ addrBytes src ++ hopBytes n dest) ∧
    (n.NetworkLayerMessage = true → n.NetworkMessageType < 0x80 →
      (EncodePDU n src dest).1 =
        [n.ProtocolVersion % 256, controlOctet n src dest] ++ addrBytes dest
          ++ addrBytes src ++ hopBytes n dest ++ [n.NetworkMessageType]) ∧
    (n.NetworkLayerMessage = true → n.NetworkMessageType ≥ 0x80 →
      ∃ b0 b1 : Nat, b0 < 256 ∧ b1 < 256 ∧ b0 + 256 * b1 = n.VendorID ∧
        (EncodePDU n src dest).1 =
          [n.ProtocolVersion % 256, controlOctet n src dest] ++ addrBytes dest
            ++ addrBytes src ++ hopBytes n dest ++ [n.NetworkMessageType, b0, b1]) ∧
    (EncodePDU n src dest).1.length =
      8 + dest.Adr.length + src.Adr.length + (if dest.Net > 0 then 1 else 0)
        + (if n.NetworkLayerMessage then
            (if n.NetworkMessageType < 0x80 then 1 else 3) else 0) := by
  have hpre : ([n.ProtocolVersion % 256, controlOctet n src dest] ++ addrBytes dest
        ++ addrBytes src ++ hopBytes n dest).length =
      8 + dest.Adr.length + src.Adr.length + (if dest.Net > 0 then 1 else 0) := by
    by_cases hd : dest.Net > 0 <;> simp [hopBytes, hd, addrBytes_length] <;> omega
  refine ⟨hpre, ?_, ?_, ?_, ?_⟩
  · intro hn
    rw [EncodePDU_bytes]
    simp [msgBytes, hn]
  · intro hn hv
    have h2 : ¬ (128 ≤ n.NetworkMessageType) := by omega
    rw [EncodePDU_bytes]
    simp [msgBytes, hn, h2, Nat.mod_eq_of_lt hN]
  · intro hn hv
    have h2 : 128 ≤ n.NetworkMessageType := hv
    refine ⟨n.VendorID % 256, n.VendorID / 256 % 256, Nat.mod_lt _ (by decide),
      Nat.mod_lt _ (by decide), by omega, ?_⟩
    rw [EncodePDU_bytes]
    simp [msgBytes, hn, h2, Nat.mod_eq_of_lt hN, putFixed]
  · rw [EncodePDU_bytes, List.length_append, hpre, msgBytes_length]

/-- Witness of C3 on a network layer message of type 0x81 with a vendor id. -/
theorem EncodePDU_message_tail_witness :
    sampleHeader.NetworkMessageType < 256 ∧ sampleHeader.VendorID < 65536 ∧
      (EncodePDU sampleHeader sampleLocal sampleRouted).1.length =
        8 + sampleRouted.Adr.length + sampleLocal.Adr.length
          + (if sampleRouted.Net > 0 then 1 else 0)
          + (if sampleHeader.NetworkLayerMessage then
              (if sampleHeader.NetworkMessageType < 0x80 then 1 else 3) else 0) :=
  ⟨by decide, by decide,
    (EncodePDU_message_tail sampleHeader sampleLocal sampleRouted
      (by decide) (by decide)).2.2.2.2⟩

/-- C4: `EncodePDU` writes its two-octet fields low octet first: octet 2 is
`dest.Net mod 256` and octet 3 is `dest.Net / 256`, the reverse of the
big-endian order; with `dest.Net = 1234` and `VendorID = 0x0102` the output
holds 210, 4 for the network number and 2, 1 for the vendor id. -/
theorem EncodePDU_net_low_octet_first :
    (∀ (n : npdu) (src dest : BacnetAddress),
      (EncodePDU n src dest).1[2]? = some (dest.Net % 256) ∧
      (EncodePDU n src dest).1[3]? = some (dest.Net / 256 % 256)) ∧
    (EncodePDU sampleHeader sampleLocal sampleRouted).1 =
      [1, 166, 210, 4, 2, 7, 9, 0, 0, 0, 200, 129, 2, 1] ∧
    (EncodePDU sampleHeader sampleLocal sampleRouted).1[2]? ≠ some (sampleRouted.Net / 256) ∧
    (EncodePDU sampleHeader sampleLocal sampleRouted).1[3]? ≠ some (sampleRouted.Net % 256) := by
  refine ⟨?_, by decide, by decide, by decide⟩
  intro n src dest
  rw [EncodePDU_bytes]
  simp [addrBytes, putFixed]

/-- C5, as stated, fails: an address with `Len = 0` and three octets in `Adr`
is encoded in six octets, not three, and `EncodePDU` with that destination and
a local source returns 11 octets, not 8. -/
theorem writeAddr_len_counterexample :
    ¬ (∀ a : BacnetAddress,
        (writeAddr { buff := [], err := none } a).buff.length = 3 + a.Len) ∧
    (writeAddr { buff := [], err := none } sampleMismatch).buff = [0, 0, 0, 1, 2, 3] ∧
    (EncodePDU (encodeNPDU false 0) sampleLocal sampleMismatch).1
      = [1, 0, 0, 0, 0, 1, 2, 3, 0, 0, 0] := by
  refine ⟨?_, by decide, by decide⟩
  intro h
  have h1 := h sampleMismatch
  revert h1
  decide

/-- C5, amended: every address is encoded as the two octets of `Net`, the octet
`Len`, and one octet per element of the `Adr` slice, so it occupies
`3 + len(Adr)` octets, which is `3 + Len` when `Len` is the length of `Adr`, and
3 when `Adr` is empty; `EncodePDU` lays the destination and then the source out
this way after its first two octets. -/
theorem writeAddr_layout (s : PduState) (a : BacnetAddress) (hs : s.err = none) :
    (writeAddr s a).buff =
      s.buff ++ ([a.Net % 256, a.Net / 256 % 256] ++ [a.Len % 256] ++ a.Adr.map (· % 256)) ∧
    (writeAddr s a).err = none ∧
    (writeAddr s a).buff.length = s.buff.length + (3 + a.Adr.length) ∧
    (a.Adr.length = a.Len → (writeAddr s a).buff.length = s.buff.length + (3 + a.Len)) ∧
    (a.Adr = [] → (writeAddr s a).buff.length = s.buff.length + 3) ∧
    (∀ (n : npdu) (src dest : BacnetAddress), ∃ (c : Nat) (rest : List Nat),
      (EncodePDU n src dest).1 =
        [n.ProtocolVersion % 256, c]
          ++ (writeAddr { buff := [], err := none } dest).buff
          ++ (writeAddr { buff := [], err := none } src).buff ++ rest) := by
  obtain ⟨b, e⟩ := s
  simp only at hs
  subst hs
  have hw := writeAddr_mk b a
  have hl := addrBytes_length a
  refine ⟨?_, ?_, ?_, ?_, ?_, ?_⟩
  · rw [hw]; simp [addrBytes, putFixed]
  · rw [hw]
  · rw [hw]; simp [hl]
  · intro h; rw [hw]; simp [hl, h]
  · intro h; rw [hw]; simp [hl, h]
  · intro n src dest
    refine ⟨controlOctet n src dest, hopBytes n dest ++ msgBytes n, ?_⟩
    rw [EncodePDU_bytes, writeAddr_mk, writeAddr_mk]
    simp

/-- Witness of C5 amended, on the empty writer and a routed address. -/
theorem writeAddr_layout_witness :
    (({ buff := [], err := none } : PduState).err = none) ∧
      (writeAddr { buff := [], err := none } sampleRouted).buff.length
        = ({ buff := [], err := none } : PduState).buff.length
          + (3 + sampleRouted.Adr.length) :=
  ⟨rfl, (writeAddr_layout { buff := [], err := none } sampleRouted rfl).2.2.1⟩

/-- C6, as stated, fails: a header whose `ProtocolVersion` field holds 2 is
encoded with first octet 2. -/
theorem EncodePDU_version_counterexample :
    ¬ (∀ (n : npdu) (src dest : BacnetAddress), (EncodePDU n src dest).1[0]? = some 1) := by
  intro h
  have h1 := h { sampleHeader with ProtocolVersion := 2 } sampleLocal sampleLocal
  revert h1
  decide

/-- C6, amended: the first octet returned by `EncodePDU` is the header's
`ProtocolVersion` field; it is the constant 1 exactly when that field is 1, as
in every header built by `encodeNPDU`. -/
theorem EncodePDU_version_octet (n : npdu) (src dest : BacnetAddress)
    (hv : n.ProtocolVersion < 256) :
    (EncodePDU n src dest).1[0]? = some n.ProtocolVersion ∧
    ((EncodePDU n src dest).1[0]? = some BacnetProtocolVersion
      ↔ n.ProtocolVersion = BacnetProtocolVersion) ∧
    (∀ (expectingReply : Bool) (priority : Nat),
      (EncodePDU (encodeNPDU expectingReply priority) src dest).1[0]? = some 1) := by
  have h0 : ∀ m : npdu, (EncodePDU m src dest).1[0]? = some (m.ProtocolVersion % 256) := by
    intro m
    rw [EncodePDU_bytes]
    simp
  refine ⟨?_, ?_, ?_⟩
  · rw [h0, Nat.mod_eq_of_lt hv]
  · rw [h0, Nat.mod_eq_of_lt hv]
    simp
  · intro er p
    rw [h0]
    rfl

/-- Witness of C6 amended, on a header of version 1. -/
theorem EncodePDU_version_octet_witness :
    sampleHeader.ProtocolVersion < 256 ∧
      (EncodePDU sampleHeader sampleLocal sampleRouted).1[0]? = some 1 :=
  ⟨by decide, (EncodePDU_version_octet sampleHeader sampleLocal sampleRouted (by decide)).1⟩

/-! ## The segmentation parameter octet -/

theorem segsLoop_eq (maxSegs : Int) :
    segsLoop maxSegs 6 0 = if maxSegs < 64 then 16 * segsBucket maxSegs else 0 := by
  unfold segsBucket
  simp only [segsLoop]
  norm_num
  split_ifs <;> first | rfl | omega

theorem encodeMaxSegsMaxApdu_high (maxSegs : Int) :
    (if maxSegs = 64 then 0x60 else if maxSegs > 64 then 0x70 else segsLoop maxSegs 6 0)
      = 16 * segsBucket maxSegs := by
  rw [segsLoop_eq]
  unfold segsBucket
  split_ifs <;> first | rfl | omega

theorem segsBucket_le (maxSegs : Int) : segsBucket maxSegs ≤ 7 := by
  unfold segsBucket
  split_ifs <;> omega

theorem or_low_nibble (s a : Nat) (hs : s ≤ 7) (ha : a ≤ 5) :
    (16 * s) ||| a = 16 * s + a := by
  interval_cases s <;> interval_cases a <;> rfl

/-- The octet of `encodeMaxSegsMaxApdu` in terms of the two buckets. -/
theorem encodeMaxSegsMaxApdu_eq (maxSegs maxApdu : Int) :
    encodeMaxSegsMaxApdu maxSegs maxApdu =
      16 * segsBucket maxSegs + (if maxApdu ≤ 1476 then apduBucket maxApdu else 0) := by
  unfold encodeMaxSegsMaxApdu
  simp only [encodeMaxSegsMaxApdu_high]
  unfold apduBucket
  have hs := segsBucket_le maxSegs
  split_ifs <;> first | omega | exact or_low_nibble _ _ hs (by decide)

theorem segsBucket_least (maxSegs : Int) (h : maxSegs < 64) :
    segsBucket maxSegs ≤ 5 ∧ maxSegs < 2 ^ (segsBucket maxSegs + 1) ∧
      ∀ i : Nat, i < segsBucket maxSegs → ¬ (maxSegs < 2 ^ (i + 1)) := by
  unfold segsBucket
  split_ifs
  all_goals
    refine ⟨by omega, by norm_num; omega, ?_⟩
    intro i hi
    interval_cases i <;> norm_num <;> omega

theorem apduBucket_first (maxApdu : Int) (h : maxApdu ≤ 1476) :
    (∃ b : Int, apduBounds[apduBucket maxApdu]? = some b ∧ maxApdu ≤ b) ∧
      ∀ (j : Nat) (b : Int), j < apduBucket maxApdu → apduBounds[j]? = some b →
        b < maxApdu := by
  unfold apduBucket apduBounds
  split_ifs
  all_goals
    refine ⟨⟨_, rfl, by simp; omega⟩, ?_⟩
    intro j b hj hb
    interval_cases j <;> simp at hb <;> omega

/-- C7: for `maxApdu <= 1476` the octet of `encodeMaxSegsMaxApdu` is `16*s + a`,
where `s` is the least `i` in 0..5 with `maxSegs < 2^(i+1)` when `maxSegs < 64`,
6 when `maxSegs = 64` and 7 when `maxSegs > 64`, and `a` is the index of the
first of the bounds 50, 128, 206, 480, 1024, 1476 that `maxApdu` does not
exceed; the five listed values are 0x00, 0x10, 0x60, 0x70 and 0x05. -/
theorem encodeMaxSegsMaxApdu_buckets (maxSegs maxApdu : Int) (h : maxApdu ≤ 1476) :
    (∃ s a : Nat, encodeMaxSegsMaxApdu maxSegs maxApdu = 16 * s + a ∧
      (maxSegs < 64 → s ≤ 5 ∧ maxSegs < 2 ^ (s + 1) ∧
        ∀ i : Nat, i < s → ¬ (maxSegs < 2 ^ (i + 1))) ∧
      (maxSegs = 64 → s = 6) ∧ (maxSegs > 64 → s = 7) ∧
      (∃ b : Int, apduBounds[a]? = some b ∧ maxApdu ≤ b) ∧
      (∀ (j : Nat) (b : Int), j < a → apduBounds[j]? = some b → b < maxApdu)) ∧
    encodeMaxSegsMaxApdu 1 50 = 0x00 ∧ encodeMaxSegsMaxApdu 2 50 = 0x10 ∧
    encodeMaxSegsMaxApdu 64 50 = 0x60 ∧ encodeMaxSegsMaxApdu 65 50 = 0x70 ∧
    encodeMaxSegsMaxApdu 1 1476 = 0x05 := by
  refine ⟨⟨segsBucket maxSegs, apduBucket maxApdu, ?_, segsBucket_least maxSegs, ?_, ?_,
    (apduBucket_first maxApdu h).1, (apduBucket_first maxApdu h).2⟩,
    by decide, by decide, by decide, by decide, by decide⟩
  · rw [encodeMaxSegsMaxApdu_eq, if_pos h]
  · intro h64
    subst h64
    decide
  · intro h64
    unfold segsBucket
    split_ifs <;> first | rfl | omega

/-- Witness of C7 at `maxSegs = 5`, `maxApdu = 480`, where the octet is 0x23. -/
theorem encodeMaxSegsMaxApdu_buckets_witness :
    (480 : Int) ≤ 1476 ∧
    (∃ s a : Nat, encodeMaxSegsMaxApdu 5 480 = 16 * s + a ∧
      ((5 : Int) < 64 → s ≤ 5 ∧ (5 : Int) < 2 ^ (s + 1) ∧
        ∀ i : Nat, i < s → ¬ ((5 : Int) < 2 ^ (i + 1))) ∧
      ((5 : Int) = 64 → s = 6) ∧ ((5 : Int) > 64 → s = 7) ∧
      (∃ b : Int, apduBounds[a]? = some b ∧ (480 : Int) ≤ b) ∧
      (∀ (j : Nat) (b : Int), j < a → apduBounds[j]? = some b → b < 480)) ∧
    encodeMaxSegsMaxApdu 5 480 = 0x23 :=
  ⟨by decide, (encodeMaxSegsMaxApdu_buckets 5 480 (by decide)).1, by decide⟩

/-! ## Date and time -/

theorem uint8_of_octet (x : Int) (h0 : 0 ≤ x) (h1 : x < 256) : ((uint8 x : Nat) : Int) = x := by
  unfold uint8
  omega

theorem uint8_lt (x : Int) : uint8 x < 256 := by
  unfold uint8
  omega

theorem Encoder_write_mk (b : List Nat) (v : Nat) :
    Encoder.write { buff := b, err := none } (.u8 v) = { buff := b ++ [v % 256], err := none } := by
  simp [Encoder.write, binaryWrite, putFixed]

theorem Decoder_decode_cons (b : Nat) (rest : List Nat) (cur : Nat) :
    Decoder.decode { buff := b :: rest, err := none } cur
      = ({ buff := rest, err := none }, b % 256) := by
  simp [Decoder.decode]

/-- The four octets appended by `Encoder.date` when no error is pending. -/
theorem Encoder_date_eq (b : List Nat) (d : Date) :
    Encoder.date { buff := b, err := none } d =
      { buff := b ++ [uint8 (if d.Year ≠ UnspecifiedTime then d.Year - epochYear else d.Year),
                      uint8 d.Month, uint8 d.Day, uint8 d.DayOfWeek],
        err := none } := by
  unfold Encoder.date
  by_cases hy : d.Year ≠ UnspecifiedTime
    <;> simp [hy, Encoder_write_mk, Nat.mod_eq_of_lt (uint8_lt _)]

/-- The four octets appended by `Encoder.time` when no error is pending. -/
theorem Encoder_time_eq (b : List Nat) (t : Time) :
    Encoder.time { buff := b, err := none } t =
      { buff := b ++ [uint8 t.Hour, uint8 t.Minute, uint8 t.Second,
                      uint8 (Int.tdiv t.Millisecond 10)],
        err := none } := by
  unfold Encoder.time
  simp [Encoder_write_mk, Nat.mod_eq_of_lt (uint8_lt _)]

/-- The result of `Decoder.time` on a buffer that starts with four octets. -/
theorem Decoder_time_eq (h m s c : Nat) (rest : List Nat) (t : Time) :
    Decoder.time { buff := h :: m :: s :: c :: rest, err := none } t =
      ({ buff := rest, err := none },
       { Hour := ((h % 256 : Nat) : Int), Minute := ((m % 256 : Nat) : Int),
         Second := ((s % 256 : Nat) : Int),
         Millisecond := ((c % 256 : Nat) : Int) * 10 }) := by
  simp [Decoder.time, Decoder_decode_cons]

/-- C8: `Decoder.date` consumes nothing and returns month, day and day of week
0 and year 1990 (0 on a Date that came in with the sentinel year), whatever the
buffer holds; on the four octets 30, 5, 17, 3 written by `Encoder.date` for
2020-05-17 it returns 1990-00-00, not the encoded date. -/
theorem Decoder_date_reads_nothing :
    (∀ (d : Decoder) (dt : Date),
      (d.date dt).1 = d ∧ (d.date dt).2.Month = 0 ∧ (d.date dt).2.Day = 0 ∧
      (d.date dt).2.DayOfWeek = 0 ∧
      (d.date dt).2.Year = if dt.Year ≠ UnspecifiedTime then 1990 else 0) ∧
    (Encoder.date { buff := [], err := none } sampleDate).buff = [30, 5, 17, 3] ∧
    Decoder.date { buff := (Encoder.date { buff := [], err := none } sampleDate).buff,
                   err := none } Date.zero
      = ({ buff := [30, 5, 17, 3], err := none },
         { Year := 1990, Month := 0, Day := 0, DayOfWeek := 0 }) ∧
    (Decoder.date { buff := (Encoder.date { buff := [], err := none } sampleDate).buff,
                    err := none } Date.zero).2 ≠ sampleDate := by
  refine ⟨?_, by decide, by decide, by decide⟩
  intro d dt
  unfold Decoder.date
  by_cases hy : dt.Year ≠ UnspecifiedTime <;> simp [hy, epochYear]

/-- C9: on an encoder with no pending error `Encoder.date` appends exactly four
octets, year, month, day, day of week: the year octet is `Year - 1990` for
every year in 1990..2244 and 0xFF for the sentinel year 0xFF, and the other
three are `Month`, `Day` and `DayOfWeek` when these are octet values. -/
theorem Encoder_date_octets (e : Encoder) (d : Date) (he : e.err = none) :
    ∃ y m dd w : Nat,
      (e.date d).buff = e.buff ++ [y, m, dd, w] ∧ (e.date d).err = none ∧
      y < 256 ∧ m < 256 ∧ dd < 256 ∧ w < 256 ∧
      (1990 ≤ d.Year → d.Year ≤ 2244 → (y : Int) = d.Year - 1990) ∧
      (d.Year = UnspecifiedTime → y = 0xFF) ∧
      (0 ≤ d.Month → d.Month < 256 → (m : Int) = d.Month) ∧
      (0 ≤ d.Day → d.Day < 256 → (dd : Int) = d.Day) ∧
      (0 ≤ d.DayOfWeek → d.DayOfWeek < 256 → (w : Int) = d.DayOfWeek) := by
  obtain ⟨b, er⟩ := e
  simp only at he
  subst he
  refine ⟨uint8 (if d.Year ≠ UnspecifiedTime then d.Year - epochYear else d.Year),
    uint8 d.Month, uint8 d.Day, uint8 d.DayOfWeek, ?_, ?_, uint8_lt _, uint8_lt _,
    uint8_lt _, uint8_lt _, ?_, ?_, uint8_of_octet _, uint8_of_octet _, uint8_of_octet _⟩
  · rw [Encoder_date_eq]
  · rw [Encoder_date_eq]
  · intro h1 h2
    have hy : d.Year ≠ UnspecifiedTime := by
      unfold UnspecifiedTime
      omega
    rw [if_pos hy]
    exact uint8_of_octet _ (by unfold epochYear; omega) (by unfold epochYear; omega)
  · intro hy
    rw [hy]
    decide

/-- Witness of C9 on the empty encoder and the date 2020-05-17, day 3. -/
theorem Encoder_date_octets_witness :
    (({ buff := [], err := none } : Encoder).err = none) ∧
    ∃ y m dd w : Nat,
      (Encoder.date { buff := [], err := none } sampleDate).buff
        = ({ buff := [], err := none } : Encoder).buff ++ [y, m, dd, w] ∧
      (Encoder.date { buff := [], err := none } sampleDate).err = none ∧
      y < 256 ∧ m < 256 ∧ dd < 256 ∧ w < 256 ∧
      (1990 ≤ sampleDate.Year → sampleDate.Year ≤ 2244 → (y : Int) = sampleDate.Year - 1990) ∧
      (sampleDate.Year = UnspecifiedTime → y = 0xFF) ∧
      (0 ≤ sampleDate.Month → sampleDate.Month < 256 → (m : Int) = sampleDate.Month) ∧
      (0 ≤ sampleDate.Day → sampleDate.Day < 256 → (dd : Int) = sampleDate.Day) ∧
      (0 ≤ sampleDate.DayOfWeek → sampleDate.DayOfWeek < 256 →
        (w : Int) = sampleDate.DayOfWeek) :=
  ⟨rfl, Encoder_date_octets { buff := [], err := none } sampleDate rfl⟩

/-- C10: for a Time with hour in 0..23, minute and second in 0..59 and
millisecond in 0..999, `Encoder.time` appends the four octets hour, minute,
second, `Millisecond / 10`, and `Decoder.time` on those octets returns the same
hour, minute and second with millisecond `Millisecond - Millisecond mod 10`,
with no error; the round trip is the identity exactly when the millisecond is
a multiple of 10. -/
theorem time_round_trip (t t0 : Time) (rest : List Nat)
    (hH : 0 ≤ t.Hour ∧ t.Hour ≤ 23) (hM : 0 ≤ t.Minute ∧ t.Minute ≤ 59)
    (hS : 0 ≤ t.Second ∧ t.Second ≤ 59) (hMs : 0 ≤ t.Millisecond ∧ t.Millisecond ≤ 999) :
    (∀ b : List Nat,
      Encoder.time { buff := b, err := none } t =
        { buff := b ++ [t.Hour.toNat, t.Minute.toNat, t.Second.toNat,
                        (t.Millisecond / 10).toNat],
          err := none }) ∧
    Decoder.time { buff := (Encoder.time { buff := [], err := none } t).buff ++ rest,
                   err := none } t0
      = ({ buff := rest, err := none },
         { Hour := t.Hour, Minute := t.Minute, Second := t.Second,
           Millisecond := t.Millisecond - t.Millisecond % 10 }) ∧
    ((Decoder.time { buff := (Encoder.time { buff := [], err := none } t).buff ++ rest,
                     err := none } t0).2 = t
      ↔ t.Millisecond % 10 = 0) := by
  have hdiv : Int.tdiv t.Millisecond 10 = t.Millisecond / 10 :=
    Int.tdiv_eq_ediv hMs.1 (by decide)
  have e1 : uint8 t.Hour = t.Hour.toNat := by unfold uint8; omega
  have e2 : uint8 t.Minute = t.Minute.toNat := by unfold uint8; omega
  have e3 : uint8 t.Second = t.Second.toNat := by unfold uint8; omega
  have e4 : uint8 (Int.tdiv t.Millisecond 10) = (t.Millisecond / 10).toNat := by
    rw [hdiv]; unfold uint8; omega
  have henc : ∀ b : List Nat,
      Encoder.time { buff := b, err := none } t =
        { buff := b ++ [t.Hour.toNat, t.Minute.toNat, t.Second.toNat,
                        (t.Millisecond / 10).toNat],
          err := none } := by
    intro b
    rw [Encoder_time_eq, e1, e2, e3, e4]
  have hdec : Decoder.time
      { buff := (Encoder.time { buff := [], err := none } t).buff ++ rest, err := none } t0
      = ({ buff := rest, err := none },
         { Hour := t.Hour, Minute := t.Minute, Second := t.Second,
           Millisecond := t.Millisecond - t.Millisecond % 10 }) := by
    rw [henc]
    simp only [List.nil_append, List.cons_append]
    rw [Decoder_time_eq]
    have a1 : ((t.Hour.toNat % 256 : Nat) : Int) = t.Hour := by omega
    have a2 : ((t.Minute.toNat % 256 : Nat) : Int) = t.Minute := by omega
    have a3 : ((t.Second.toNat % 256 : Nat) : Int) = t.Second := by omega
    have a4 : (((t.Millisecond / 10).toNat % 256 : Nat) : Int) * 10
        = t.Millisecond - t.Millisecond % 10 := by omega
    rw [a1, a2, a3, a4]
  refine ⟨henc, hdec, ?_⟩
  rw [hdec]
  obtain ⟨h, m, s, ms⟩ := t
  simp only [Time.mk.injEq, true_and]
  constructor <;> intro hx <;> omega

/-- Witness of C10 on 13:45:59.987, which decodes to 13:45:59.980. -/
theorem time_round_trip_witness :
    (0 ≤ sampleTime.Hour ∧ sampleTime.Hour ≤ 23) ∧
    (0 ≤ sampleTime.Minute ∧ sampleTime.Minute ≤ 59) ∧
    (0 ≤ sampleTime.Second ∧ sampleTime.Second ≤ 59) ∧
    (0 ≤ sampleTime.Millisecond ∧ sampleTime.Millisecond ≤ 999) ∧
    Decoder.time { buff := (Encoder.time { buff := [], err := none } sampleTime).buff ++ [],
                   err := none } Time.zero
      = ({ buff := [], err := none },
         { Hour := sampleTime.Hour, Minute := sampleTime.Minute,
           Second := sampleTime.Second,
           Millisecond := sampleTime.Millisecond - sampleTime.Millisecond % 10 }) :=
  ⟨by decide, by decide, by decide, by decide,
    (time_round_trip sampleTime Time.zero [] (by decide) (by decide) (by decide)
      (by decide)).2.1⟩

/-! ## Application data -/

/-- C11: for a Date, a Time, an ObjectID, a signed integer or nil the type
switch of `Encoder.AppData` matches no case: the encoder is left as it was (no
octet written) and the returned error is nil, not an unsupported-value-type
error. -/
theorem Encoder_AppData_unsupported_is_silent :
    (∀ (e : Encoder) (d : Date), e.AppData (.date d) = (e, none)) ∧
    (∀ (e : Encoder) (t : Time), e.AppData (.time t) = (e, none)) ∧
    (∀ (e : Encoder) (ty inst : Nat), e.AppData (.objectID ty inst) = (e, none)) ∧
    (∀ (e : Encoder) (v : Int), e.AppData (.int v) = (e, none)) ∧
    (∀ (e : Encoder) (v : Int), e.AppData (.int32 v) = (e, none)) ∧
    (∀ e : Encoder, e.AppData .nil = (e, none)) ∧
    emptyEncoder.AppData (.date sampleDate) = ({ buff := [], err := none }, none) ∧
    (emptyEncoder.AppData (.date sampleDate)).2 ≠ some AppError.unsupportedValueType := by
  refine ⟨?_, ?_, ?_, ?_, ?_, ?_, by decide, by decide⟩ <;> intros <;> rfl

/-- C12, as stated, fails: on the single header octet 0x00 (tag number 0)
`Decoder.AppData` returns a nil value with the null-tag error, not a nil
error. -/
theorem Decoder_AppData_null_counterexample :
    ¬ (∀ d : Decoder, d.tagNumberAndValue.2.1 = 0 →
        d.AppData.2.1 = AppValue.nil ∧ d.AppData.2.2 = none) ∧
    sampleNullInput.tagNumberAndValue.2.1 = 0 ∧
    sampleNullInput.AppData = ({ buff := [9], err := none }, AppValue.nil, some AppError.nullTag) := by
  refine ⟨?_, by decide, by decide⟩
  intro h
  have h1 := (h sampleNullInput (by decide)).2
  revert h1
  decide

/-- C12, amended: whenever the tag header decodes to tag number 0, whatever the
class bit, the length or value and the octets that follow, `Decoder.AppData`
returns the nil value together with the non-nil null-tag error, and reads
nothing beyond the header. -/
theorem Decoder_AppData_null (d : Decoder) (h : d.tagNumberAndValue.2.1 = 0) :
    d.AppData = (d.tagNumberAndValue.1, AppValue.nil, some AppError.nullTag) := by
  simp [Decoder.AppData, h, tagNull]

/-- Witness of C12 amended, on a null tag followed by one octet. -/
theorem Decoder_AppData_null_witness :
    sampleNullInput.tagNumberAndValue.2.1 = 0 ∧
      sampleNullInput.AppData
        = (sampleNullInput.tagNumberAndValue.1, AppValue.nil, some AppError.nullTag) :=
  ⟨by decide, Decoder_AppData_null sampleNullInput (by decide)⟩

theorem appError_not_unsupported (d : Decoder) (err : AppError)
    (h : d.appError = some err) : err.isUnsupportedTag = false := by
  unfold Decoder.appError Decoder.Error at h
  cases hd : d.err with
  | none => simp [hd] at h
  | some msg =>
    simp [hd] at h
    subst h
    rfl

/-- C13: when the tag header decodes to tag number 6, 8, 13, 14, 15 or above,
`Decoder.AppData` returns a nil value and an unsupported-tag error, reading
nothing beyond the header; when it decodes to one of 1, 2, 3, 4, 5, 7, 9, 10,
11, 12 the returned error is never an unsupported-tag error.  Only the tag
number enters the choice. -/
theorem Decoder_AppData_unsupported_tags (d : Decoder) :
    (d.tagNumberAndValue.2.1 = 6 ∨ d.tagNumberAndValue.2.1 = 8
        ∨ d.tagNumberAndValue.2.1 ≥ 13 →
      d.AppData.1 = d.tagNumberAndValue.1 ∧ d.AppData.2.1 = AppValue.nil ∧
      ∃ err : AppError, d.AppData.2.2 = some err ∧ err.isUnsupportedTag = true) ∧
    (d.tagNumberAndValue.2.1 ∈ [1, 2, 3, 4, 5, 7, 9, 10, 11, 12] →
      ∀ err : AppError, d.AppData.2.2 = some err → err.isUnsupportedTag = false) := by
  constructor
  · intro h
    rcases h with h | h | h
    · simp [Decoder.AppData, h, tagNull, tagBool, tagUint, tagInt, tagReal, tagDouble,
        tagOctetString, AppError.isUnsupportedTag]
    · simp [Decoder.AppData, h, tagNull, tagBool, tagUint, tagInt, tagReal, tagDouble,
        tagOctetString, tagCharacterString, tagBitString, AppError.isUnsupportedTag]
    · have h0 : ∀ k : Nat, k < 13 → ¬ (d.tagNumberAndValue.2.1 = k) := by
        intro k hk; omega
      simp [Decoder.AppData, tagNull, tagBool, tagUint, tagInt, tagReal, tagDouble,
        tagOctetString, tagCharacterString, tagBitString, tagEnumerated, tagDate, tagTime,
        tagObjectID, AppError.isUnsupportedTag, h0]
  · intro h err
    simp only [List.mem_cons, List.mem_singleton, List.not_mem_nil, or_false] at h
    rcases h with h | h | h | h | h | h | h | h | h | h
    all_goals
      simp only [Decoder.AppData, h, tagNull, tagBool, tagUint, tagInt, tagReal, tagDouble,
        tagOctetString, tagCharacterString, tagBitString, tagEnumerated, tagDate, tagTime,
        tagObjectID]
      norm_num
      exact appError_not_unsupported _ err

/-- Witness of C13, on an octet-string tag. -/
theorem Decoder_AppData_unsupported_tags_witness :
    sampleOctetStringInput.tagNumberAndValue.2.1 = 6 ∧
      sampleOctetStringInput.AppData.2.1 = AppValue.nil ∧
      ∃ err : AppError, sampleOctetStringInput.AppData.2.2 = some err ∧
        err.isUnsupportedTag = true :=
  ⟨by decide,
    ((Decoder_AppData_unsupported_tags sampleOctetStringInput).1 (Or.inl (by decide))).2⟩

/-- C14: `Encoder.boolean` emits the tag of number 1 with length or value 1 for
true and 0 for false, one header octet (0x11 or 0x10) and no payload; whenever
the tag header decodes to tag number 1 with length or value `L`,
`Decoder.AppData` returns the boolean `L != 0` and reads nothing beyond the
header, so the hand-built tag with `L = 7` decodes to true, and what
`Encoder.boolean` wrote decodes to the boolean it was given. -/
theorem boolean_convention (d : Decoder) (x : Bool) :
    (∀ e : Encoder, e.boolean x = e.tag 1 false (if x then 1 else 0)) ∧
    (∀ b : List Nat,
      Encoder.boolean { buff := b, err := none } x
        = { buff := b ++ [if x then 0x11 else 0x10], err := none }) ∧
    (d.tagNumberAndValue.2.1 = 1 →
      d.AppData.1 = d.tagNumberAndValue.1 ∧
      d.AppData.2.1 = AppValue.bool (decide (d.tagNumberAndValue.2.2.2 ≠ 0))) ∧
    sampleBoolInput.AppData = ({ buff := [], err := none }, AppValue.bool true, none) ∧
    Decoder.AppData { buff := (emptyEncoder.boolean x).buff, err := none }
      = ({ buff := [], err := none }, AppValue.bool x, none) := by
  refine ⟨?_, ?_, ?_, by decide, ?_⟩
  · intro e
    rfl
  · intro b
    cases x <;> simp [Encoder.boolean, Encoder.tag, Encoder.write, binaryWrite, putFixed,
      tagBool, appLayerContext]
  · intro h
    simp [Decoder.AppData, h, tagNull, tagBool]
    by_cases h0 : d.tagNumberAndValue.2.2.2 = 0
    · simp [h0]
    · have h1 : 0 < d.tagNumberAndValue.2.2.2 := Nat.pos_of_ne_zero h0
      simp [h0, h1]
  · cases x <;> decide

/-- Witness of C14, on the hand-built boolean tag with length or value 7. -/
theorem boolean_convention_witness :
    sampleBoolInput.tagNumberAndValue.2.1 = 1 ∧
      sampleBoolInput.tagNumberAndValue.2.2.2 = 7 ∧
      sampleBoolInput.AppData.2.1
        = AppValue.bool (decide (sampleBoolInput.tagNumberAndValue.2.2.2 ≠ 0)) :=
  ⟨by decide, by decide, ((boolean_convention sampleBoolInput true).2.2.1 (by decide)).2⟩

/-- C15: for a `float32` `Encoder.AppData` emits the tag of number 4 with length
or value 4 and then the 4 payload octets; for a `float64` it emits the tag of
number 5 with length or value `realLen` = 4, not `doubleLen` = 8, and then the 8
payload octets: 72.5 is written as 0x54 and eight octets, where a tag of length
8 is 0x55, 0x08. -/
theorem Encoder_AppData_double_tag_length :
    (∀ (e : Encoder) (bits : Nat),
      e.AppData (.float32 bits) = ((e.tag 4 false 4).writeBE 4 bits, none)) ∧
    (∀ (e : Encoder) (bits : Nat),
      e.AppData (.float64 bits) = ((e.tag 5 false 4).writeBE 8 bits, none)) ∧
    (emptyEncoder.AppData (.float32 sampleRealBits)).1.buff = [0x44, 0x42, 0x91, 0, 0] ∧
    (emptyEncoder.AppData (.float64 sampleDoubleBits)).1.buff
      = [0x54, 0x40, 0x52, 0x20, 0, 0, 0, 0, 0] ∧
    ((emptyEncoder.tag tagDouble appLayerContext doubleLen).double sampleDoubleBits).buff
      = [0x55, 0x08, 0x40, 0x52, 0x20, 0, 0, 0, 0, 0] ∧
    (emptyEncoder.AppData (.float64 sampleDoubleBits)).1
      ≠ (emptyEncoder.tag tagDouble appLayerContext doubleLen).double sampleDoubleBits := by
  refine ⟨?_, ?_, by decide, by decide, by decide, by decide⟩ <;> intros <;> rfl

/-- C16: `IsOddMonth` holds exactly at 13 and `IsEvenMonth` exactly at 14, so
never both; `IsEvenDayOfMonth` holds exactly at 33, and `IsLastDayOfMonth` and
`IsOddDayOfMonth` both hold exactly at 32 and agree on every input. -/
theorem wildcard_helpers (m d : Int) :
    (IsOddMonth m = true ↔ m = 13) ∧ (IsEvenMonth m = true ↔ m = 14) ∧
    ¬ (IsOddMonth m = true ∧ IsEvenMonth m = true) ∧
    (IsEvenDayOfMonth d = true ↔ d = 33) ∧
    ((IsLastDayOfMonth d = true ∧ IsOddDayOfMonth d = true) ↔ d = 32) ∧
    IsLastDayOfMonth d = IsOddDayOfMonth d := by
  unfold IsOddMonth IsEvenMonth IsEvenDayOfMonth IsLastDayOfMonth IsOddDayOfMonth
  refine ⟨by simp, by simp, ?_, by simp, by simp, rfl⟩
  simp only [decide_eq_true_eq]
  omega

/-! ## The broadcast address -/

theorem broadcastLoop_four (a0 a1 a2 a3 m0 m1 m2 m3 : Nat) :
    broadcastLoop { IP := [a0, a1, a2, a3], Mask := [m0, m1, m2, m3] } (List.range 4)
      = some [(a0 % 256) ||| (255 - m0 % 256), (a1 % 256) ||| (255 - m1 % 256),
              (a2 % 256) ||| (255 - m2 % 256), (a3 % 256) ||| (255 - m3 % 256)] := by
  rfl

theorem broadcast_octet (a m : Nat) (ha : a < 256) (hm : m < 256) :
    (a % 256) ||| (255 - m % 256) = a ||| (255 - m) ∧ a ||| (255 - m) < 256 ∧
      ∀ k : Nat, k < 8 →
        (a ||| (255 - m)).testBit k = (if m.testBit k then a.testBit k else true) := by
  refine ⟨by rw [Nat.mod_eq_of_lt ha, Nat.mod_eq_of_lt hm], ?_, ?_⟩
  · exact Nat.or_lt_two_pow (n := 8) ha (by omega)
  · intro k hk
    have h := Nat.testBit_two_pow_sub_succ (show m < 2 ^ 8 from hm) k
    have e : 2 ^ 8 - (m + 1) = 255 - m := by omega
    rw [e] at h
    rw [Nat.testBit_or, h]
    cases a.testBit k <;> cases m.testBit k <;> simp [hk]

/-- C17: when the CIDR string parses to a network with a 4-octet address and a
4-octet mask, `getBroadcast` returns, with a nil error, the 4 octets
`ip[i] | ^mask[i]`: each bit under the mask is the bit of `ip` and each host
bit is 1; when the string does not parse it returns the parse error. -/
theorem getBroadcast_ipv4 (parseCIDR : String → Except String IPNet) (addr : String) :
    (∀ ipnet : IPNet, parseCIDR addr = .ok ipnet →
      ipnet.IP.length = 4 → ipnet.Mask.length = 4 →
      (∀ x ∈ ipnet.IP, x < 256) → (∀ x ∈ ipnet.Mask, x < 256) →
      ∃ bc : List Nat, getBroadcast parseCIDR addr = some (bc, none) ∧ bc.length = 4 ∧
        ∀ i : Nat, i < 4 → ∃ a m b : Nat,
          ipnet.IP[i]? = some a ∧ ipnet.Mask[i]? = some m ∧ bc[i]? = some b ∧
          b = a ||| (255 - m) ∧ b < 256 ∧
          ∀ k : Nat, k < 8 → b.testBit k = (if m.testBit k then a.testBit k else true)) ∧
    (∀ err : String, parseCIDR addr = .error err →
      getBroadcast parseCIDR addr = some ([], some err)) := by
  constructor
  · intro ipnet hp hip hmask hx hy
    obtain ⟨ip, mask⟩ := ipnet
    simp only at hip hmask hx hy
    rcases ip with _ | ⟨a0, _ | ⟨a1, _ | ⟨a2, _ | ⟨a3, _ | ⟨a4, t⟩⟩⟩⟩⟩ <;> simp at hip
    rcases mask with _ | ⟨m0, _ | ⟨m1, _ | ⟨m2, _ | ⟨m3, _ | ⟨m4, u⟩⟩⟩⟩⟩ <;> simp at hmask
    have b0 := broadcast_octet a0 m0 (hx a0 (by simp)) (hy m0 (by simp))
    have b1 := broadcast_octet a1 m1 (hx a1 (by simp)) (hy m1 (by simp))
    have b2 := broadcast_octet a2 m2 (hx a2 (by simp)) (hy m2 (by simp))
    have b3 := broadcast_octet a3 m3 (hx a3 (by simp)) (hy m3 (by simp))
    refine ⟨[a0 ||| (255 - m0), a1 ||| (255 - m1), a2 ||| (255 - m2), a3 ||| (255 - m3)],
      ?_, rfl, ?_⟩
    · simp only [getBroadcast, hp, broadcastLoop_four, b0.1, b1.1, b2.1, b3.1, Option.map_some']
    · intro i hi
      interval_cases i
      · exact ⟨a0, m0, _, rfl, rfl, rfl, rfl, b0.2.1, b0.2.2⟩
      · exact ⟨a1, m1, _, rfl, rfl, rfl, rfl, b1.2.1, b1.2.2⟩
      · exact ⟨a2, m2, _, rfl, rfl, rfl, rfl, b2.2.1, b2.2.2⟩
      · exact ⟨a3, m3, _, rfl, rfl, rfl, rfl, b3.2.1, b3.2.2⟩
  · intro err hp
    simp only [getBroadcast, hp]

/-- Witness of C17 on 192.168.1.7/24, whose broadcast address is
192.168.1.255. -/
theorem getBroadcast_ipv4_witness :
    sampleParseCIDR "192.168.1.7/24" = .ok sampleNet ∧
      getBroadcast sampleParseCIDR "192.168.1.7/24" = some ([192, 168, 1, 255], none) ∧
      ∃ bc : List Nat,
        getBroadcast sampleParseCIDR "192.168.1.7/24" = some (bc, none) ∧ bc.length = 4 ∧
        ∀ i : Nat, i < 4 → ∃ a m b : Nat,
          sampleNet.IP[i]? = some a ∧ sampleNet.Mask[i]? = some m ∧ bc[i]? = some b ∧
          b = a ||| (255 - m) ∧ b < 256 ∧
          ∀ k : Nat, k < 8 → b.testBit k = (if m.testBit k then a.testBit k else true) :=
  ⟨rfl, by decide,
    (getBroadcast_ipv4 sampleParseCIDR "192.168.1.7/24").1 sampleNet rfl
      (by decide) (by decide) (by decide) (by decide)⟩

/-! ## The NPDU framer and the segmentation octet, continued -/

/-- C18: `EncodePDU` returns a nil error for every header and pair of
addresses: each write of its helper on a state without error appends the
octets of the value and leaves the error nil, so no write is skipped and the
output holds every field. -/
theorem EncodePDU_error_nil (n : npdu) (src dest : BacnetAddress) :
    (EncodePDU n src dest).2 = none ∧
    (∀ (b : List Nat) (p : Fixed),
      write { buff := b, err := none } p
        = { buff := b ++ putFixed ByteOrder.LittleEndian p, err := none }) ∧
    (∀ (b : List Nat) (a : BacnetAddress),
      (writeAddr { buff := b, err := none } a).err = none ∧
      (writeAddr { buff := b, err := none } a).buff.length = b.length + 3 + a.Adr.length) ∧
    (EncodePDU n src dest).1.length =
      8 + dest.Adr.length + src.Adr.length + (if dest.Net > 0 then 1 else 0)
        + (if n.NetworkLayerMessage then
            (if n.NetworkMessageType < 0x80 then 1 else 3) else 0) := by
  refine ⟨by rw [EncodePDU_eq], write_mk, ?_, ?_⟩
  · intro b a
    rw [writeAddr_mk]
    simp [addrBytes_length]
    omega
  · rw [EncodePDU_bytes]
    by_cases hd : dest.Net > 0
      <;> simp [hopBytes, hd, addrBytes_length, msgBytes_length] <;> omega

theorem apduLow_le (maxApdu : Int) :
    (if maxApdu ≤ 1476 then apduBucket maxApdu else 0) ≤ 5 := by
  unfold apduBucket
  split_ifs <;> omega

/-- C19: for `maxApdu > 1476` the octet of `encodeMaxSegsMaxApdu` has low nibble
0 and equals the octet for `maxApdu = 50`; for all inputs the low nibble is at
most 5 and the high nibble at most 7, the high nibble depends on `maxSegs`
alone and the low nibble on `maxApdu` alone, and the octet is not monotone in
`maxApdu`. -/
theorem encodeMaxSegsMaxApdu_above_1476 (maxSegs maxApdu : Int) (h : maxApdu > 1476) :
    encodeMaxSegsMaxApdu maxSegs maxApdu % 16 = 0 ∧
    encodeMaxSegsMaxApdu maxSegs maxApdu = encodeMaxSegsMaxApdu maxSegs 50 ∧
    (∀ s a : Int, encodeMaxSegsMaxApdu s a % 16 ≤ 5 ∧ encodeMaxSegsMaxApdu s a / 16 ≤ 7) ∧
    (∀ s a b : Int, encodeMaxSegsMaxApdu s a / 16 = encodeMaxSegsMaxApdu s b / 16) ∧
    (∀ s t a : Int, encodeMaxSegsMaxApdu s a % 16 = encodeMaxSegsMaxApdu t a % 16) ∧
    (∃ s a b : Int, a ≤ b ∧ encodeMaxSegsMaxApdu s b < encodeMaxSegsMaxApdu s a) := by
  have hn : ¬ (maxApdu ≤ 1476) := by omega
  refine ⟨?_, ?_, ?_, ?_, ?_, ⟨1, 1476, 1477, by decide, by decide⟩⟩
  · rw [encodeMaxSegsMaxApdu_eq, if_neg hn]
    omega
  · rw [encodeMaxSegsMaxApdu_eq, encodeMaxSegsMaxApdu_eq, if_neg hn]
    rfl
  · intro s a
    have h1 := segsBucket_le s
    have h2 := apduLow_le a
    rw [encodeMaxSegsMaxApdu_eq]
    omega
  · intro s a b
    have h2 := apduLow_le a
    have h3 := apduLow_le b
    rw [encodeMaxSegsMaxApdu_eq, encodeMaxSegsMaxApdu_eq]
    omega
  · intro s t a
    have h2 := apduLow_le a
    rw [encodeMaxSegsMaxApdu_eq, encodeMaxSegsMaxApdu_eq]
    omega

/-- Witness of C19 at `maxSegs = 3`, `maxApdu = 2000`, where the octet is
0x10. -/
theorem encodeMaxSegsMaxApdu_above_1476_witness :
    (2000 : Int) > 1476 ∧ encodeMaxSegsMaxApdu 3 2000 % 16 = 0 ∧
      encodeMaxSegsMaxApdu 3 2000 = encodeMaxSegsMaxApdu 3 50 :=
  ⟨by decide, (encodeMaxSegsMaxApdu_above_1476 3 2000 (by decide)).1,
    (encodeMaxSegsMaxApdu_above_1476 3 2000 (by decide)).2.1⟩

/-- C20: the header returned by `encodeNPDU` has version 1, is not a network
layer message, has message type 0xFF, vendor id 0, hop count 255 and the given
`ExpectingReply` and `Priority`; `EncodePDU` of it starts with octet 1, has bit
7 of the control octet clear, holds no message type or vendor id octets, and
after the two addresses holds the hop count 255 exactly when `dest.Net > 0`. -/
theorem encodeNPDU_frame (expectingReply : Bool) (priority : Nat)
    (src dest : BacnetAddress) :
    (encodeNPDU expectingReply priority).ProtocolVersion = 1 ∧
    (encodeNPDU expectingReply priority).NetworkLayerMessage = false ∧
    (encodeNPDU expectingReply priority).NetworkMessageType = 0xFF ∧
    (encodeNPDU expectingReply priority).VendorID = 0 ∧
    (encodeNPDU expectingReply priority).HopCount = 255 ∧
    (encodeNPDU expectingReply priority).ExpectingReply = expectingReply ∧
    (encodeNPDU expectingReply priority).Priority = priority ∧
    (EncodePDU (encodeNPDU expectingReply priority) src dest).1[0]? = some 1 ∧
    (∃ c : Nat, (EncodePDU (encodeNPDU expectingReply priority) src dest).1[1]? = some c ∧
      c.testBit 7 = false) ∧
    (EncodePDU (encodeNPDU expectingReply priority) src dest).1 =
      [1, controlOctet (encodeNPDU expectingReply priority) src dest] ++ addrBytes dest
        ++ addrBytes src ++ (if dest.Net > 0 then [255] else []) ∧
    (EncodePDU (encodeNPDU expectingReply priority) src dest).1.length =
      8 + dest.Adr.length + src.Adr.length + (if dest.Net > 0 then 1 else 0) := by
  have hb : (EncodePDU (encodeNPDU expectingReply priority) src dest).1 =
      [1, controlOctet (encodeNPDU expectingReply priority) src dest] ++ addrBytes dest
        ++ addrBytes src ++ (if dest.Net > 0 then [255] else []) := by
    rw [EncodePDU_bytes]
    by_cases hd : dest.Net > 0 <;>
      simp [hopBytes, msgBytes, hd, encodeNPDU, BacnetProtocolVersion, HopCountDefault]
  refine ⟨rfl, rfl, rfl, rfl, rfl, rfl, rfl, ?_, ?_, hb, ?_⟩
  · rw [hb]
    simp
  · refine ⟨controlOctet (encodeNPDU expectingReply priority) src dest, ?_, ?_⟩
    · rw [hb]
      simp
    · rw [controlOctet_eq]
      have hq : priority % 4 < 4 := Nat.mod_lt _ (by decide)
      simp only [encodeNPDU]
      generalize priority % 4 = q at hq
      interval_cases q <;> cases expectingReply
        <;> by_cases hd : dest.Net > 0 <;> by_cases hs : src.Net > 0 ∧ src.Len > 0
        <;> simp [hd, hs] <;> decide
  · rw [hb]
    by_cases hd : dest.Net > 0 <;> simp [hd, addrBytes_length] <;> omega

end Gobacnet
